import Mathlib

/-
Verification of the Rush-Royale-Bot merge decision engine and perception layer.

The development shallowly embeds the relevant Python sources:
  * `Src/bot_core.py` — the census filter primitives (`filter_units`,
    `adv_filter_keys`, `preserve_unit`), the census aggregation
    (`grid_meta_info` / `get_unit_count`) and the merge decision pipeline
    (`Bot.try_merge`, `Bot.special_merge`, `Bot.harley_merge`,
    `Bot.merge_unit`, `Bot.merge_special_unit`);
  * `src/core/perception.py` — grid-state building with age tracking
    (`PerceptionSystem.analyze_grid_state`, `_track_unit_age`) and the color
    classifier (`_find_best_unit_match`, `_calculate_color_mse`).

A pandas Series indexed by the (unit, rank) MultiIndex is embedded as a list
of entries in index order (pandas `groupby` sorts the keys, which the
census construction below reproduces).  The uniform random draws of
`pandas.sample` are embedded by the deterministic choice of the first
element / first two elements of the group; every theorem below is invariant
under the choice made.  Side effects of the engine (swipes sent to the
device, the demon-hunter wait) are reified as fields of the result record.
-/

namespace RRBot

/-- A filter token passed to `filter_units`: Python passes either a unit-name
string or an integer rank in the same heterogeneous list. -/
inductive Token where
  | unit (u : String)
  | rank (r : Nat)
deriving Repr, DecidableEq

/-- One entry of a (unit, rank)-indexed count series. -/
structure Entry where
  unit : String
  rank : Nat
  count : Nat
deriving Repr, DecidableEq

/-- A pandas Series with (unit, rank) MultiIndex, in index order. -/
abbrev Series := List Entry

/-- One row of the grid dataframe produced by `bot_perception.grid_status`
(that module is not part of the sources; a row carries the slot position,
the recognised unit, its rank and its age, as described by the spec's
GridSlot). -/
structure Row where
  pos : Nat
  unit : String
  rank : Nat
  age : Nat
deriving Repr, DecidableEq

/-- The configuration bits of `config.ini` that `try_merge` consults. -/
structure BotConfig where
  require_shaman : Bool
deriving Repr, DecidableEq

/-- Does a series entry match one filter token (`xs` on the matching
MultiIndex level in `filter_units`)? -/
def matchesToken (e : Entry) : Token → Bool
  | Token.unit u => e.unit == u
  | Token.rank r => e.rank == r

/-- Key membership: `series.index.isin(other.index)` for one entry. -/
def inKeys (e : Entry) (l : Series) : Bool :=
  l.any (fun m => m.unit == e.unit && m.rank == e.rank)

/-- `filter_units(unit_series, units)` of `bot_core.py`: collect the
entries matching any token, then select the entries of the original series
whose (unit, rank) key occurs among the matches; an empty match list yields
the empty series. -/
def filter_units (unit_series : Series) (units : List Token) : Series :=
  let temp := unit_series.filter (fun e => units.any (matchesToken e))
  if temp.isEmpty then []
  else unit_series.filter (fun e => inKeys e temp)

/-- `adv_filter_keys(unit_series, units, ranks, remove)` of `bot_core.py`:
filter by units, then narrow by ranks within the unit-filtered result, and
finally keep (`remove = false`) or drop (`remove = true`) the entries of the
original series whose key is among the filtered keys. -/
def adv_filter_keys (unit_series : Series) (units ranks : Option (List Token))
    (remove : Bool) : Series :=
  if unit_series.isEmpty then []
  else
    let filtered_units :=
      match units with
      | some us => filter_units unit_series us
      | none => unit_series
    let filtered_ranks :=
      match ranks with
      | some rs => if filtered_units.isEmpty then filtered_units else filter_units filtered_units rs
      | none => filtered_units
    if remove then unit_series.filter (fun e => !(inKeys e filtered_ranks))
    else unit_series.filter (fun e => inKeys e filtered_ranks)

/-- Lexicographic order on (unit, rank) index keys, as pandas compares
index tuples. -/
def keyLe (a b : String × Nat) : Bool :=
  match compare a.1 b.1 with
  | Ordering.lt => true
  | Ordering.gt => false
  | Ordering.eq => decide (a.2 ≤ b.2)

/-- `index.min()` of a series: the lexicographically least key. -/
def indexMin (s : Series) : Option (String × Nat) :=
  match s with
  | [] => none
  | e :: rest =>
      some (rest.foldl (fun acc m => if keyLe acc (m.unit, m.rank) then acc else (m.unit, m.rank))
        (e.unit, e.rank))

/-- `index.max()` of a series: the lexicographically greatest key. -/
def indexMax (s : Series) : Option (String × Nat) :=
  match s with
  | [] => none
  | e :: rest =>
      some (rest.foldl (fun acc m => if keyLe acc (m.unit, m.rank) then (m.unit, m.rank) else acc)
        (e.unit, e.rank))

/-- `preserve_unit(unit_series, target, keep_min)` of `bot_core.py`:
decrement by one the count at the highest-rank (or lowest-rank when
`keep_min`) key of the target unit, then drop non-positive counts; a series
without the target is returned unchanged. -/
def preserve_unit (unit_series : Series) (target : String) (keep_min : Bool) : Series :=
  let preserve_series := adv_filter_keys unit_series (some [Token.unit target]) none false
  match (if keep_min then indexMin preserve_series else indexMax preserve_series) with
  | none => unit_series
  | some key =>
      (unit_series.map (fun e =>
          if e.unit == key.1 && e.rank == key.2 then { e with count := e.count - 1 } else e)).filter
        (fun e => decide (0 < e.count))

/-- Insert a key into a `keyLe`-sorted key list. -/
def insertKey (k : String × Nat) : List (String × Nat) → List (String × Nat)
  | [] => [k]
  | k' :: ks => if keyLe k k' then k :: k' :: ks else k' :: insertKey k ks

/-- Insertion sort of index keys (pandas `groupby` sorts the group keys). -/
def sortKeys : List (String × Nat) → List (String × Nat)
  | [] => []
  | k :: ks => insertKey k (sortKeys ks)

/-- Remove duplicate keys. -/
def dedupKeys : List (String × Nat) → List (String × Nat)
  | [] => []
  | k :: ks => if ks.contains k then dedupKeys ks else k :: dedupKeys ks

/-- The `unit_series` of `grid_meta_info(grid_df, min_age)`: rows of at
least the given age, grouped by (unit, rank) in sorted key order, with the
group sizes as counts. -/
def grid_meta_series (grid_df : List Row) (min_age : Nat) : Series :=
  let aged := grid_df.filter (fun row => decide (min_age ≤ row.age))
  (sortKeys (dedupKeys (aged.map (fun row => (row.unit, row.rank))))).map
    (fun k =>
      { unit := k.1, rank := k.2
        count := (aged.filter (fun row => row.unit == k.1 && row.rank == k.2)).length })

/-- `df_split.get_group(key)`: the grid rows of one (unit, rank) group. -/
def get_group (grid_df : List Row) (u : String) (r : Nat) : List Row :=
  grid_df.filter (fun row => row.unit == u && row.rank == r)

/-- Total of the counts of a series (`sum(series)`). -/
def sumCounts (s : Series) : Nat :=
  (s.map (fun e => e.count)).sum

/-- `Bot.merge_unit(df_split, merge_series)`: pick a series entry
(`sample()`, embedded as the first entry), fetch its grid group; with at
least two rows, pick two (`sample(n=2)`, embedded as the first two) and
swipe them; a one-row group is returned without a swipe.  The first
component is the `merge_df` the caller stores, the second the swipe
executed. -/
def merge_unit (grid_df : List Row) (merge_series : Series) :
    Option (List Row) × List (Row × Row) :=
  match merge_series with
  | [] => (none, [])
  | e :: _ =>
      match get_group grid_df e.unit e.rank with
      | a :: b :: _ => (some [a, b], [(a, b)])
      | grp => (some grp, [])

/-- `Bot.merge_special_unit(df_split, merge_series, special_type)`: split
the two-entry series into the special entry and the normal entry, draw one
row from each group (`sample()`, embedded as the first row) and swipe them.
The callers guarantee both entries and groups are non-empty; the defensive
`[]` branches correspond to inputs on which the Python would raise. -/
def merge_special_unit (grid_df : List Row) (merge_series : Series)
    (special_type : String) : List (Row × Row) :=
  let special_unit := adv_filter_keys merge_series (some [Token.unit special_type]) none false
  let normal_unit := adv_filter_keys merge_series (some [Token.unit special_type]) none true
  match special_unit, normal_unit with
  | se :: _, ne :: _ =>
      match get_group grid_df se.unit se.rank, get_group grid_df ne.unit ne.rank with
      | sr :: _, nr :: _ => [(sr, nr)]
      | _, _ => []
  | _, _ => []

/-- The rank loop of `Bot.special_merge`: for each dryad rank (ascending,
as the sorted series yields them) look for a same-rank harlequin+dryad pair,
then for a same-rank dryad+target pair; merge the first hit and stop. -/
def special_merge_loop (grid_df : List Row) (merge_series : Series) (target : String) :
    List Nat → List (Row × Row)
  | [] => []
  | r :: rest =>
      let merge_series_dryad :=
        adv_filter_keys merge_series (some [Token.unit "harlequin.png", Token.unit "dryad.png"])
          (some [Token.rank r]) false
      let merge_series_zealot :=
        adv_filter_keys merge_series (some [Token.unit "dryad.png", Token.unit target])
          (some [Token.rank r]) false
      if merge_series_dryad.length == 2 then
        merge_special_unit grid_df merge_series_dryad "harlequin.png"
      else if merge_series_zealot.length == 2 then
        merge_special_unit grid_df merge_series_zealot "dryad.png"
      else special_merge_loop grid_df merge_series target rest

/-- `Bot.special_merge(df_split, merge_series, target)`: try to rank up
dryads via harlequin or to fuse a dryad with the target, returning the
swipe executed (the Python returns the merged dataframe, which `try_merge`
discards). -/
def special_merge (grid_df : List Row) (merge_series : Series) (target : String) :
    List (Row × Row) :=
  let dryads_series := adv_filter_keys merge_series (some [Token.unit "dryad.png"]) none false
  if dryads_series.isEmpty then []
  else special_merge_loop grid_df merge_series target (dryads_series.map (fun e => e.rank))

/-- The rank loop of `Bot.harley_merge`. -/
def harley_merge_loop (grid_df : List Row) (merge_series : Series) (target : String) :
    List Nat → List (Row × Row)
  | [] => []
  | r :: rest =>
      let merge_series_target :=
        adv_filter_keys merge_series (some [Token.unit "harlequin.png", Token.unit target])
          (some [Token.rank r]) false
      if merge_series_target.length == 2 then
        merge_special_unit grid_df merge_series_target "harlequin.png"
      else harley_merge_loop grid_df merge_series target rest

/-- `Bot.harley_merge(df_split, merge_series, target)`: for each harlequin
rank, merge a same-rank harlequin+target pair if present. -/
def harley_merge (grid_df : List Row) (merge_series : Series) (target : String) :
    List (Row × Row) :=
  let hq_series := adv_filter_keys merge_series (some [Token.unit "harlequin.png"]) none false
  if hq_series.isEmpty then []
  else harley_merge_loop grid_df merge_series target (hq_series.map (fun e => e.rank))

/-- Removing the empty groups from the census
(`adv_filter_keys(merge_series, units='empty.png', remove=True)`). -/
def strip_empty (unit_series : Series) : Series :=
  adv_filter_keys unit_series (some [Token.unit "empty.png"]) none true

/-- The co-op filter: with a demon-hunter target and `require_shaman` set,
drop all demon-hunter entries from the pool. -/
def shaman_strip (merge_target : String) (cfg : BotConfig) (pool : Series) : Series :=
  if merge_target == "demon_hunter.png" && cfg.require_shaman then
    adv_filter_keys pool (some [Token.unit "demon_hunter.png"]) none true
  else pool

/-- The protection pass of `try_merge`: one chemist (highest rank), then
four cauldrons (lowest rank). -/
def protect_pass (pool : Series) : Series :=
  preserve_unit (preserve_unit (preserve_unit (preserve_unit
    (preserve_unit pool "chemist.png" false)
      "cauldron.png" true) "cauldron.png" true) "cauldron.png" true) "cauldron.png" true

/-- The knight-statue protection: remove the two highest knight_statue
entries from the pool. -/
def knight_protect (pool : Series) : Series :=
  preserve_unit (preserve_unit pool "knight_statue.png" false) "knight_statue.png" false

/-- The narrowing of `try_merge`: keep counts of at least two
(`merge_series[merge_series >= 2]`), then remove the max-rank entries
(`adv_filter_keys(merge_series, ranks=7, remove=True)`). -/
def narrow_pool (pool : Series) : Series :=
  adv_filter_keys (pool.filter (fun e => decide (2 ≤ e.count))) none (some [Token.rank 7]) true

/-- The high priority merge units of `try_merge`. -/
def prio_units : List Token :=
  [Token.unit "chemist.png", Token.unit "bombardier.png", Token.unit "summoner.png",
   Token.unit "knight_statue.png"]

/-- The units excluded (at ranks 3..7) from the escalated full-board pool. -/
def protected_units (merge_target : String) : List Token :=
  [Token.unit "zealot.png", Token.unit "crystal.png", Token.unit "bruser.png",
   Token.unit merge_target]

/-- The rank list of the escalated full-board filter. -/
def ranks_3_7 : List Token :=
  [Token.rank 3, Token.rank 4, Token.rank 5, Token.rank 6, Token.rank 7]

/-- The observable outcome of one `Bot.try_merge` cycle: the census, the
final merge pool, the `merge_df` assigned by `merge_unit` (None when no
merge branch fired), every swipe sent to the device, whether the
demon-hunter saturation guard slept, and the `info` string. -/
structure TryMergeRes where
  unit_series : Series
  merge_series : Series
  merge_df : Option (List Row)
  swipes : List (Row × Row)
  waited : Bool
  info : String
deriving Repr, DecidableEq

/-- `Bot.try_merge(rank, prev_grid, merge_target)` of `bot_core.py`,
working over the grid dataframe (the perception result).  The stages in
order: census, empty strip, special merge, the demon-hunter block (harley
copy, saturation wait, optional shaman strip), chemist/cauldron protection,
knight-statue parity and protection, narrowing, priority merge, and the
fullness check.  The demon-hunter counters are computed unconditionally
here (they are pure); the Python computes them inside the
`merge_target == 'demon_hunter.png'` branch, where alone they are used. -/
def try_merge (grid_df : List Row) (rank : Nat) (merge_target : String)
    (cfg : BotConfig) : TryMergeRes :=
  let unit_series := grid_meta_series grid_df 0
  let pool0 := strip_empty unit_series
  let sw_special := special_merge grid_df pool0 merge_target
  let sw_harley :=
    if merge_target == "demon_hunter.png" then harley_merge grid_df pool0 merge_target else []
  let num_demon :=
    sumCounts (adv_filter_keys pool0 (some [Token.unit "demon_hunter.png"]) none false)
  let waited := merge_target == "demon_hunter.png" && decide (11 ≤ num_demon)
  let pool1 := shaman_strip merge_target cfg pool0
  let pool3 := protect_pass pool1
  let num_knight :=
    sumCounts (adv_filter_keys pool3 (some [Token.unit "knight_statue.png"]) none false)
  let sw_knight :=
    if num_knight % 2 == 1 then harley_merge grid_df pool3 "knight_statue.png" else []
  let pool4 := knight_protect pool3
  let pool6 := narrow_pool pool4
  let merge_prio := adv_filter_keys pool6 (some prio_units) none false
  let prioRes :=
    if merge_prio.isEmpty then ((none : Option (List Row)), ([] : List (Row × Row)))
    else merge_unit grid_df merge_prio
  let emptyCount := (grid_df.filter (fun row => row.unit == "empty.png")).length
  let low_series := adv_filter_keys pool6 none (some [Token.rank rank]) false
  let poolHi :=
    adv_filter_keys pool6 (some (protected_units merge_target)) (some ranks_3_7) true
  let fullRes : Option (List Row) × List (Row × Row) × Series × String :=
    if emptyCount ≤ 2 then
      if !low_series.isEmpty then
        ((merge_unit grid_df low_series).1, (merge_unit grid_df low_series).2, pool6, "Merging!")
      else if !poolHi.isEmpty then
        ((merge_unit grid_df poolHi).1, (merge_unit grid_df poolHi).2, poolHi,
          "Merging high level!")
      else (none, [], poolHi, "Merging high level!")
    else (none, [], pool6, "need more units!")
  { unit_series := unit_series
    merge_series := fullRes.2.2.1
    merge_df := match fullRes.1 with | some d => some d | none => prioRes.1
    swipes := sw_special ++ sw_harley ++ sw_knight ++ prioRes.2 ++ fullRes.2.1
    waited := waited
    info := fullRes.2.2.2 }

namespace Perception

/-- One row of the perception dataframe of `core/perception.py`
(`recognize_units` output plus the age column). -/
structure PRow where
  slot : Nat
  unit : String
  rank : Nat
  age : Nat
deriving Repr, DecidableEq

/-- `PerceptionSystem._track_unit_age(current_grid, previous_grid)`: all
ages start at 0; with a non-empty previous grid, a row whose slot, unit and
rank match a previous row gets that row's age plus one (`iloc[0]`, the
first match). -/
def track_unit_age (current_grid previous_grid : List PRow) : List PRow :=
  if previous_grid.isEmpty then current_grid.map (fun r => { r with age := 0 })
  else
    current_grid.map (fun r =>
      match previous_grid.find?
          (fun p => p.slot == r.slot && p.unit == r.unit && p.rank == r.rank) with
      | some p => { r with age := p.age + 1 }
      | none => { r with age := 0 })

/-- `PerceptionSystem.analyze_grid_state(unit_files, previous_grid)`,
applied to the recognition rows: age tracking against the previous grid, or
age 0 everywhere without one. -/
def analyze_grid_state (unit_df : List PRow) (previous_grid : Option (List PRow)) :
    List PRow :=
  match previous_grid with
  | some prev => track_unit_age unit_df prev
  | none => unit_df.map (fun r => { r with age := 0 })

/-- An RGB color; the reference colors are integer K-means centroids
(`astype(int)`), the arithmetic on them is exact. -/
structure Color where
  red : Int
  green : Int
  blue : Int
deriving Repr, DecidableEq

/-- A unit reference: name and representative colors
(`self.unit_colors`). -/
structure UnitRef where
  name : String
  colors : List Color
deriving Repr, DecidableEq

/-- The best match returned by `_find_best_unit_match`. -/
structure MatchResult where
  unit : String
  confidence : ℚ
deriving Repr, DecidableEq

/-- `self.mse_threshold = 2000` of `PerceptionSystem.__init__`. -/
def mse_threshold : ℚ := 2000

/-- `np.mean((c1 - c2) ** 2)` over one pair of RGB triples. -/
def color_mse (c1 c2 : Color) : ℚ :=
  (((c1.red - c2.red) ^ 2 + (c1.green - c2.green) ^ 2 + (c1.blue - c2.blue) ^ 2 : Int) : ℚ) / 3

/-- One step of the running minimum, with `none` standing for the initial
`float('inf')`. -/
def optMin (acc : Option ℚ) (m : ℚ) : Option ℚ :=
  match acc with
  | none => some m
  | some x => some (min x m)

/-- `PerceptionSystem._calculate_color_mse(colors1, colors2)`: the minimum
pairwise `color_mse`, `none` (infinity) when either color set is empty. -/
def calculate_color_mse (colors1 colors2 : List Color) : Option ℚ :=
  if colors1.isEmpty || colors2.isEmpty then none
  else (colors1.flatMap (fun a => colors2.map (fun b => color_mse a b))).foldl optMin none

/-- Strict comparison with `none` as infinity (`mse < lowest_mse` on
floats). -/
def mseLt (a b : Option ℚ) : Bool :=
  match a, b with
  | none, _ => false
  | some _, none => true
  | some x, some y => decide (x < y)

/-- Threshold test with `none` as infinity (`mse <= threshold`). -/
def mseLe (a : Option ℚ) (t : ℚ) : Bool :=
  match a with
  | none => false
  | some x => decide (x ≤ t)

/-- The loop body of `_find_best_unit_match`: skip references without
colors; accept a reference when its mse strictly improves the running
lowest and clears the threshold, recording name, confidence and mse. -/
def stepRef (unit_colors : List Color) (st : String × ℚ × Option ℚ) (ref : UnitRef) :
    String × ℚ × Option ℚ :=
  if ref.colors.isEmpty then st
  else
    let mse := calculate_color_mse unit_colors ref.colors
    if mseLt mse st.2.2 && mseLe mse mse_threshold then
      (ref.name, (match mse with | some m => max 0 (1 - m / mse_threshold) | none => 0), mse)
    else st

/-- `PerceptionSystem._find_best_unit_match(unit_colors)` over the loaded
references: fold of `stepRef` from `empty.png` / confidence 0 /
infinite lowest mse. -/
def find_best_unit_match (refs : List UnitRef) (unit_colors : List Color) : MatchResult :=
  let st := refs.foldl (stepRef unit_colors) ("empty.png", (0 : ℚ), (none : Option ℚ))
  { unit := st.1, confidence := st.2.1 }

/-- A reference is eligible when it has colors and its distance to the cell
colors clears the acceptance threshold. -/
def eligB (unit_colors : List Color) (u : UnitRef) : Bool :=
  !u.colors.isEmpty && mseLe (calculate_color_mse unit_colors u.colors) mse_threshold

/-- Non-strict comparison of optional distances, `none` as infinity. -/
def mseLeOpt : Option ℚ → Option ℚ → Prop
  | _, none => True
  | none, some _ => False
  | some x, some y => x ≤ y

end Perception

/-- An empty grid slot at a position. -/
def emptyRow (p : Nat) : Row :=
  { pos := p, unit := "empty.png", rank := 0, age := 0 }

/-- Grid of claim C1: two rank-3 demon hunters and thirteen empty slots. -/
def gridC1 : List Row :=
  [⟨0, "demon_hunter.png", 3, 0⟩, ⟨1, "demon_hunter.png", 3, 0⟩] ++
    (List.range 13).map (fun i => emptyRow (i + 2))

/-- Grid of claim C2: a rank-1 harlequin, a rank-1 dryad, twelve distinct
single units and one empty slot — no (unit, rank) census entry reaches
count 2. -/
def gridC2 : List Row :=
  [⟨0, "harlequin.png", 1, 0⟩, ⟨1, "dryad.png", 1, 0⟩,
   ⟨2, "fA.png", 1, 0⟩, ⟨3, "fB.png", 1, 0⟩, ⟨4, "fC.png", 1, 0⟩,
   ⟨5, "fD.png", 1, 0⟩, ⟨6, "fE.png", 1, 0⟩, ⟨7, "fF.png", 1, 0⟩,
   ⟨8, "fG.png", 1, 0⟩, ⟨9, "fH.png", 1, 0⟩, ⟨10, "fI.png", 1, 0⟩,
   ⟨11, "fJ.png", 1, 0⟩, ⟨12, "fK.png", 1, 0⟩, ⟨13, "fL.png", 1, 0⟩,
   emptyRow 14]

/-- Grid of claim C5: thirteen rank-1 demon hunters and two empty slots. -/
def gridC5 : List Row :=
  (List.range 13).map (fun i => ⟨i, "demon_hunter.png", 1, 0⟩) ++
    [emptyRow 13, emptyRow 14]

/-- Grid of claim C6: two rank-2 zealots and thirteen distinct single
units; the board is full. -/
def gridC6 : List Row :=
  [⟨0, "zealot.png", 2, 0⟩, ⟨1, "zealot.png", 2, 0⟩,
   ⟨2, "fA.png", 1, 0⟩, ⟨3, "fB.png", 1, 0⟩, ⟨4, "fC.png", 1, 0⟩,
   ⟨5, "fD.png", 1, 0⟩, ⟨6, "fE.png", 1, 0⟩, ⟨7, "fF.png", 1, 0⟩,
   ⟨8, "fG.png", 1, 0⟩, ⟨9, "fH.png", 1, 0⟩, ⟨10, "fI.png", 1, 0⟩,
   ⟨11, "fJ.png", 1, 0⟩, ⟨12, "fK.png", 1, 0⟩, ⟨13, "fL.png", 1, 0⟩,
   ⟨14, "fM.png", 1, 0⟩]

/-- Grid of claim C7: three rank-1 chemists, one rank-4 chemist and eleven
empty slots. -/
def gridC7 : List Row :=
  [⟨0, "chemist.png", 1, 0⟩, ⟨1, "chemist.png", 1, 0⟩, ⟨2, "chemist.png", 1, 0⟩,
   ⟨3, "chemist.png", 4, 0⟩] ++ (List.range 11).map (fun i => emptyRow (i + 4))

/-- A small census used to instantiate the filter theorems. -/
def seriesW : Series :=
  [⟨"chemist.png", 2, 3⟩, ⟨"chemist.png", 5, 1⟩, ⟨"monk.png", 2, 2⟩, ⟨"monk.png", 7, 1⟩]

/-- Current recognition rows used to instantiate the age theorem. -/
def curW : List Perception.PRow :=
  [⟨0, "chemist.png", 1, 0⟩, ⟨1, "monk.png", 2, 0⟩, ⟨2, "empty.png", 0, 0⟩]

/-- Previous grid rows used to instantiate the age theorem. -/
def prevW : List Perception.PRow :=
  [⟨0, "chemist.png", 1, 3⟩, ⟨1, "harlequin.png", 2, 6⟩, ⟨2, "empty.png", 0, 1⟩]

/-- Reference catalog used to instantiate the classifier theorem. -/
def refsW : List Perception.UnitRef :=
  [⟨"chemist.png", [⟨10, 20, 30⟩]⟩, ⟨"monk.png", [⟨200, 210, 220⟩]⟩, ⟨"blank.png", []⟩]

/-- Cell colors used to instantiate the classifier theorem. -/
def csW : List Perception.Color :=
  [⟨13, 20, 30⟩]

/-- Pointwise meaning of one optional token-list filter argument: `none`
matches everything, a token list matches by any token. -/
def optPred (ts : Option (List Token)) (e : Entry) : Bool :=
  match ts with
  | some l => l.any (matchesToken e)
  | none => true

/-- The pointwise selection predicate of `adv_filter_keys`: the entry must
match both the units argument and the ranks argument. -/
def advPred (units ranks : Option (List Token)) (e : Entry) : Bool :=
  optPred units e && optPred ranks e

theorem matchesToken_key {m e : Entry} (hu : m.unit = e.unit) (hr : m.rank = e.rank) :
    matchesToken m = matchesToken e := by
  funext t
  cases t with
  | unit u => simp [matchesToken, hu]
  | rank r => simp [matchesToken, hr]

theorem optPred_key (ts : Option (List Token)) (m e : Entry)
    (hu : m.unit = e.unit) (hr : m.rank = e.rank) : optPred ts m = optPred ts e := by
  unfold optPred
  rw [matchesToken_key hu hr]

theorem advPred_key (u r : Option (List Token)) (m e : Entry)
    (hu : m.unit = e.unit) (hr : m.rank = e.rank) : advPred u r m = advPred u r e := by
  unfold advPred
  rw [optPred_key u m e hu hr, optPred_key r m e hu hr]

theorem inKeys_filter_eq {P : Entry → Bool}
    (hP : ∀ m e : Entry, m.unit = e.unit → m.rank = e.rank → P m = P e)
    (s : Series) : ∀ e ∈ s, inKeys e (s.filter P) = P e := by
  intro e he
  cases hpe : P e with
  | true =>
      simp only [inKeys, List.any_eq_true]
      exact ⟨e, List.mem_filter.mpr ⟨he, hpe⟩, by simp⟩
  | false =>
      cases hin : inKeys e (s.filter P) with
      | false => rfl
      | true =>
          exfalso
          simp only [inKeys, List.any_eq_true] at hin
          obtain ⟨m, hm, hkey⟩ := hin
          obtain ⟨hmem, hPm⟩ := List.mem_filter.mp hm
          simp only [Bool.and_eq_true, beq_iff_eq] at hkey
          rw [hP m e hkey.1 hkey.2, hpe] at hPm
          exact Bool.false_ne_true hPm

theorem filter_units_eq (s : Series) (ts : List Token) :
    filter_units s ts = s.filter (fun e => ts.any (matchesToken e)) := by
  simp only [filter_units]
  split
  next h =>
    rw [List.isEmpty_iff] at h
    exact h.symm
  next h =>
    exact List.filter_congr
      (inKeys_filter_eq (fun m e hu hr => by rw [matchesToken_key hu hr]) s)

theorem adv_filtered_units_eq (s : Series) (u : Option (List Token)) :
    (match u with | some us => filter_units s us | none => s) = s.filter (optPred u) := by
  cases u with
  | none =>
      symm
      rw [List.filter_eq_self]
      intro a _
      rfl
  | some us =>
      show filter_units s us = s.filter (optPred (some us))
      rw [filter_units_eq s us]
      exact List.filter_congr (fun e he => rfl)

theorem adv_filtered_ranks_eq (s : Series) (u r : Option (List Token)) :
    (match r with
      | some rs =>
          if (match u with | some us => filter_units s us | none => s).isEmpty then
            (match u with | some us => filter_units s us | none => s)
          else filter_units (match u with | some us => filter_units s us | none => s) rs
      | none => (match u with | some us => filter_units s us | none => s))
      = s.filter (advPred u r) := by
  cases r with
  | none =>
      rw [adv_filtered_units_eq]
      show s.filter (optPred u) = s.filter (advPred u none)
      refine List.filter_congr (fun e he => ?_)
      simp [advPred, optPred]
  | some rs =>
      rw [adv_filtered_units_eq]
      show (if (s.filter (optPred u)).isEmpty = true then s.filter (optPred u)
            else filter_units (s.filter (optPred u)) rs) = s.filter (advPred u (some rs))
      by_cases hfe : (s.filter (optPred u)).isEmpty = true
      · rw [if_pos hfe]
        rw [List.isEmpty_iff] at hfe
        rw [hfe]
        symm
        rw [List.filter_eq_nil_iff]
        intro e he hadv
        have hu : optPred u e = true := by
          simp only [advPred, Bool.and_eq_true] at hadv
          exact hadv.1
        have hmem : e ∈ s.filter (optPred u) := List.mem_filter.mpr ⟨he, hu⟩
        rw [hfe] at hmem
        simp at hmem
      · rw [if_neg hfe, filter_units_eq, List.filter_filter]
        refine List.filter_congr (fun e he => ?_)
        simp [advPred, optPred, Bool.and_comm]

theorem adv_filter_keys_false_eq (s : Series) (u r : Option (List Token)) :
    adv_filter_keys s u r false = s.filter (advPred u r) := by
  by_cases hs : s.isEmpty = true
  · rw [List.isEmpty_iff] at hs
    subst hs
    rfl
  · simp only [adv_filter_keys, if_neg hs, Bool.false_eq_true, if_false]
    rw [adv_filtered_ranks_eq]
    exact List.filter_congr (inKeys_filter_eq (advPred_key u r) s)

theorem adv_filter_keys_true_eq (s : Series) (u r : Option (List Token)) :
    adv_filter_keys s u r true = s.filter (fun e => !(advPred u r e)) := by
  by_cases hs : s.isEmpty = true
  · rw [List.isEmpty_iff] at hs
    subst hs
    rfl
  · simp only [adv_filter_keys, if_neg hs, if_true]
    rw [adv_filtered_ranks_eq]
    refine List.filter_congr (fun e he => ?_)
    rw [inKeys_filter_eq (advPred_key u r) s e he]

theorem adv_filter_keys_nil (u r : Option (List Token)) (rm : Bool) :
    adv_filter_keys [] u r rm = [] := rfl

theorem adv_filter_keys_sublist (s : Series) (u r : Option (List Token)) (rm : Bool) :
    (adv_filter_keys s u r rm).Sublist s := by
  cases rm
  · rw [adv_filter_keys_false_eq]
    exact List.filter_sublist s
  · rw [adv_filter_keys_true_eq]
    exact List.filter_sublist s

theorem mem_adv_filter_keys {s : Series} {u r : Option (List Token)} {rm : Bool} :
    ∀ e ∈ adv_filter_keys s u r rm, e ∈ s :=
  fun _ he => (adv_filter_keys_sublist _ _ _ _).subset he

theorem preserve_unit_step (s : Series) (key : String × Nat) :
    ∀ e ∈ (s.map (fun x =>
        if x.unit == key.1 && x.rank == key.2 then { x with count := x.count - 1 } else x)).filter
        (fun x => decide (0 < x.count)),
      ∃ x ∈ s, e.count ≤ x.count := by
  intro e he
  have he2 := List.mem_of_mem_filter he
  rw [List.mem_map] at he2
  obtain ⟨x, hx, hfx⟩ := he2
  refine ⟨x, hx, ?_⟩
  by_cases hkey : (x.unit == key.1 && x.rank == key.2) = true
  · rw [if_pos hkey] at hfx
    rw [← hfx]
    exact Nat.sub_le _ _
  · rw [if_neg hkey] at hfx
    rw [← hfx]

theorem preserve_unit_count_le (s : Series) (t : String) (k : Bool) :
    ∀ e ∈ preserve_unit s t k, ∃ x ∈ s, e.count ≤ x.count := by
  intro e he
  unfold preserve_unit at he
  dsimp only at he
  split at he
  · exact ⟨e, he, le_refl _⟩
  · exact preserve_unit_step s _ e he

theorem protect_pass_count_le (p : Series) :
    ∀ e ∈ protect_pass p, ∃ x ∈ p, e.count ≤ x.count := by
  intro e he
  unfold protect_pass at he
  obtain ⟨e1, he1, l1⟩ := preserve_unit_count_le _ _ _ e he
  obtain ⟨e2, he2, l2⟩ := preserve_unit_count_le _ _ _ e1 he1
  obtain ⟨e3, he3, l3⟩ := preserve_unit_count_le _ _ _ e2 he2
  obtain ⟨e4, he4, l4⟩ := preserve_unit_count_le _ _ _ e3 he3
  obtain ⟨e5, he5, l5⟩ := preserve_unit_count_le _ _ _ e4 he4
  exact ⟨e5, he5, by omega⟩

theorem knight_protect_count_le (p : Series) :
    ∀ e ∈ knight_protect p, ∃ x ∈ p, e.count ≤ x.count := by
  intro e he
  unfold knight_protect at he
  obtain ⟨e1, he1, l1⟩ := preserve_unit_count_le _ _ _ e he
  obtain ⟨e2, he2, l2⟩ := preserve_unit_count_le _ _ _ e1 he1
  exact ⟨e2, he2, by omega⟩

theorem mem_shaman_strip (t : String) (cfg : BotConfig) (p : Series) :
    ∀ e ∈ shaman_strip t cfg p, e ∈ p := by
  intro e he
  unfold shaman_strip at he
  split at he
  · exact mem_adv_filter_keys e he
  · exact he

theorem narrow_pool_eq_nil {p : Series} (h : ∀ e ∈ p, e.count ≤ 1) : narrow_pool p = [] := by
  unfold narrow_pool
  have hf : p.filter (fun e => decide (2 ≤ e.count)) = [] := by
    rw [List.filter_eq_nil_iff]
    intro e he
    simp only [decide_eq_true_eq]
    have := h e he
    omega
  rw [hf]
  rfl

theorem any_unit_tokens (us : List String) (e : Entry) :
    (us.map Token.unit).any (matchesToken e) = us.any (fun u => e.unit == u) := by
  induction us with
  | nil => rfl
  | cons a t ih => simp [matchesToken, ih]

theorem any_rank_tokens (rs : List Nat) (e : Entry) :
    (rs.map Token.rank).any (matchesToken e) = rs.any (fun n => e.rank == n) := by
  induction rs with
  | nil => rfl
  | cons a t ih => simp [matchesToken, ih]

/-- Claim C3: for every unit series, `adv_filter_keys` called with both a
units list and a ranks list and `remove = false` returns exactly the
entries whose unit matches one of the units AND whose rank matches one of
the ranks — the rank filter narrows within the unit-filtered result. -/
theorem adv_filter_keys_units_and_ranks (s : Series) (us : List String) (rs : List Nat) :
    adv_filter_keys s (some (us.map Token.unit)) (some (rs.map Token.rank)) false
      = s.filter (fun e => us.any (fun u => e.unit == u) && rs.any (fun n => e.rank == n)) := by
  rw [adv_filter_keys_false_eq]
  refine List.filter_congr (fun e he => ?_)
  simp only [advPred, optPred]
  rw [any_unit_tokens, any_rank_tokens]

/-- Claim C8: for every unit series and every units/ranks filter, the
`remove = false` selection and the `remove = true` complement partition
the original series, and the two parts are disjoint. -/
theorem adv_filter_keys_partition (s : Series) (units ranks : Option (List Token)) :
    List.Perm (adv_filter_keys s units ranks false ++ adv_filter_keys s units ranks true) s ∧
    ∀ e ∈ adv_filter_keys s units ranks false, e ∉ adv_filter_keys s units ranks true := by
  rw [adv_filter_keys_false_eq, adv_filter_keys_true_eq]
  refine ⟨List.filter_append_perm _ s, ?_⟩
  intro e he1 he2
  have p1 := (List.mem_filter.mp he1).2
  have p2 := (List.mem_filter.mp he2).2
  rw [p1] at p2
  simp at p2

/-- Claim C10: every entry of an `adv_filter_keys` result is an entry of
the input series — filtering never creates keys and never changes a count
(the result is a sublist of the input, which is itself untouched). -/
theorem adv_filter_keys_entries_from_input (s : Series) (units ranks : Option (List Token))
    (remove : Bool) :
    (adv_filter_keys s units ranks remove).Sublist s ∧
    ∀ e ∈ adv_filter_keys s units ranks remove, e ∈ s :=
  ⟨adv_filter_keys_sublist s units ranks remove, fun _ he => mem_adv_filter_keys _ he⟩

/-- Claim C2 (amended): for every grid whose census (empty groups removed)
has no (unit, rank) entry of count at least 2, `try_merge` assigns no
`merge_df` — no merge action is returned (special-combo swipes may still be
executed as a side effect, see the counterexample). -/
theorem no_pairs_returns_no_merge_action (grid_df : List Row) (rank : Nat)
    (merge_target : String) (cfg : BotConfig)
    (h : ∀ e ∈ strip_empty (grid_meta_series grid_df 0), e.count ≤ 1) :
    (try_merge grid_df rank merge_target cfg).merge_df = none := by
  have h1 : ∀ e ∈ shaman_strip merge_target cfg (strip_empty (grid_meta_series grid_df 0)),
      e.count ≤ 1 :=
    fun e he => h e (mem_shaman_strip _ _ _ e he)
  have h4 : ∀ e ∈ knight_protect (protect_pass
      (shaman_strip merge_target cfg (strip_empty (grid_meta_series grid_df 0)))), e.count ≤ 1 := by
    intro e he
    obtain ⟨x1, hx1, l1⟩ := knight_protect_count_le _ e he
    obtain ⟨x2, hx2, l2⟩ := protect_pass_count_le _ x1 hx1
    have := h1 x2 hx2
    omega
  have h6 := narrow_pool_eq_nil h4
  simp only [try_merge]
  rw [h6]
  simp only [adv_filter_keys_nil, List.isEmpty_nil, if_true, Bool.not_true]
  by_cases hc : (grid_df.filter (fun row => row.unit == "empty.png")).length ≤ 2 <;>
    simp [hc]

/-- Claim C5 (amended): whenever the configured merge target is the demon
hunter and the stripped census holds at least 11 demon hunters, the cycle
signals the saturation wait (it does not return early; a merge can still
follow, see the counterexample). -/
theorem demon_saturation_sets_wait (grid_df : List Row) (rank : Nat) (cfg : BotConfig)
    (h : 11 ≤ sumCounts (adv_filter_keys (strip_empty (grid_meta_series grid_df 0))
        (some [Token.unit "demon_hunter.png"]) none false)) :
    (try_merge grid_df rank "demon_hunter.png" cfg).waited = true := by
  simp only [try_merge]
  simp [h]

/-- Claim C6 (amended): the escalated full-board pool is the narrowed pool
minus exactly the entries whose unit is protected (zealot, crystal, bruser
or the merge target) AND whose rank lies in 3..7; every other entry stays,
including protected units below rank 3 and non-protected units of any
rank. -/
theorem escalated_pool_characterization (s : Series) (merge_target : String) :
    adv_filter_keys s (some (protected_units merge_target)) (some ranks_3_7) true
      = s.filter (fun e =>
          !((e.unit == "zealot.png" || e.unit == "crystal.png" || e.unit == "bruser.png" ||
              e.unit == merge_target) &&
            (e.rank == 3 || e.rank == 4 || e.rank == 5 || e.rank == 6 || e.rank == 7))) := by
  rw [adv_filter_keys_true_eq]
  refine List.filter_congr (fun e he => ?_)
  simp [advPred, optPred, protected_units, ranks_3_7, matchesToken, Bool.and_assoc,
    Bool.or_assoc]

theorem zip_map_snd {α β : Type} (f : α → β) (l : List α) :
    ∀ pr ∈ l.zip (l.map f), pr.2 = f pr.1 := by
  induction l with
  | nil =>
      intro pr hpr
      simp at hpr
  | cons a t ih =>
      intro pr hpr
      rw [List.map_cons, List.zip_cons_cons] at hpr
      rcases List.mem_cons.mp hpr with rfl | h
      · rfl
      · exact ih pr h

namespace Perception

theorem pairwise_slot_inj {l : List PRow}
    (h : l.Pairwise (fun a b => a.slot ≠ b.slot)) :
    ∀ p ∈ l, ∀ q ∈ l, p.slot = q.slot → p = q := by
  induction l with
  | nil =>
      intro p hp
      simp at hp
  | cons a t ih =>
      rw [List.pairwise_cons] at h
      intro p hp q hq hs
      rcases List.mem_cons.mp hp with rfl | hp2 <;> rcases List.mem_cons.mp hq with rfl | hq2
      · rfl
      · exact absurd hs (h.1 q hq2)
      · exact absurd hs.symm (h.1 p hp2)
      · exact ih h.2 p hp2 q hq2 hs

/-- Claim C4: grid building with no previous state gives every slot age 0;
with a previous state (one row per slot), a slot whose (unit, rank) equals
the previous row's at the same slot has age one more than the previous
age, and any other slot has age 0. -/
theorem analyze_grid_state_age_spec (cur prev : List PRow)
    (huniq : prev.Pairwise (fun a b => a.slot ≠ b.slot)) :
    (∀ r ∈ analyze_grid_state cur none, r.age = 0) ∧
    (∀ pr ∈ cur.zip (analyze_grid_state cur (some prev)), ∀ p ∈ prev,
      p.slot = pr.1.slot →
        pr.2.age = if p.unit = pr.1.unit ∧ p.rank = pr.1.rank then p.age + 1 else 0) := by
  constructor
  · intro r hr
    simp only [analyze_grid_state] at hr
    rw [List.mem_map] at hr
    obtain ⟨x, hx, rfl⟩ := hr
    rfl
  · intro pr hpr p hp hslot
    simp only [analyze_grid_state, track_unit_age] at hpr
    by_cases hpe : prev.isEmpty = true
    · rw [List.isEmpty_iff] at hpe
      subst hpe
      simp at hp
    · rw [if_neg hpe] at hpr
      have h2 := zip_map_snd _ cur pr hpr
      rw [h2]
      rcases hq : prev.find?
          (fun x => x.slot == pr.1.slot && x.unit == pr.1.unit && x.rank == pr.1.rank)
        with _ | q
      · simp only [hq]
        have hall := List.find?_eq_none.mp hq p hp
        rw [if_neg]
        rintro ⟨hu2, hr2⟩
        exact hall (by simp [hslot, hu2, hr2])
      · simp only [hq]
        have hqmem := List.mem_of_find?_eq_some hq
        have hqpred := List.find?_some hq
        simp only [Bool.and_eq_true, beq_iff_eq] at hqpred
        have hqp : q = p :=
          pairwise_slot_inj huniq q hqmem p hp (by rw [hqpred.1.1, hslot])
        subst hqp
        rw [if_pos ⟨hqpred.1.2, hqpred.2⟩]

theorem mseLeOpt_refl (a : Option ℚ) : mseLeOpt a a := by
  cases a with
  | none => exact True.intro
  | some x => exact le_refl x

theorem mseLeOpt_trans {a b c : Option ℚ} (h1 : mseLeOpt a b) (h2 : mseLeOpt b c) :
    mseLeOpt a c := by
  cases c with
  | none => cases a <;> exact True.intro
  | some z =>
      cases b with
      | none => exact h2.elim
      | some y =>
          cases a with
          | none => exact h1.elim
          | some x => exact le_trans h1 h2

theorem mseLt_imp_leOpt {a b : Option ℚ} (h : mseLt a b = true) : mseLeOpt a b := by
  cases a with
  | none => simp [mseLt] at h
  | some x =>
      cases b with
      | none => exact True.intro
      | some y =>
          simp only [mseLt, decide_eq_true_eq] at h
          exact le_of_lt h

theorem not_mseLt_imp_leOpt {a b : Option ℚ} (h : mseLt a b = false) : mseLeOpt b a := by
  cases a with
  | none => cases b <;> exact True.intro
  | some x =>
      cases b with
      | none => simp [mseLt] at h
      | some y =>
          simp only [mseLt, decide_eq_false_iff_not] at h
          exact le_of_not_lt h

theorem stepRef_foldl_spec (cs : List Color) :
    ∀ (refs : List UnitRef) (b : String) (c : ℚ) (lo : Option ℚ),
      mseLeOpt (refs.foldl (stepRef cs) (b, c, lo)).2.2 lo ∧
      (∀ u ∈ refs, eligB cs u = true →
        mseLeOpt (refs.foldl (stepRef cs) (b, c, lo)).2.2 (calculate_color_mse cs u.colors)) ∧
      (((refs.foldl (stepRef cs) (b, c, lo)).1 = b ∧
          (refs.foldl (stepRef cs) (b, c, lo)).2.2 = lo) ∨
        ∃ v ∈ refs, eligB cs v = true ∧ (refs.foldl (stepRef cs) (b, c, lo)).1 = v.name ∧
          (refs.foldl (stepRef cs) (b, c, lo)).2.2 = calculate_color_mse cs v.colors) := by
  intro refs
  induction refs with
  | nil =>
      intro b c lo
      exact ⟨mseLeOpt_refl lo, by simp, Or.inl ⟨rfl, rfl⟩⟩
  | cons r rs ih =>
      intro b c lo
      rw [List.foldl_cons]
      by_cases hempty : r.colors.isEmpty = true
      · have hst : stepRef cs (b, c, lo) r = (b, c, lo) := by
          simp [stepRef, hempty]
        rw [hst]
        obtain ⟨m1, m2, m3⟩ := ih b c lo
        refine ⟨m1, ?_, ?_⟩
        · intro u hu helig
          rcases List.mem_cons.mp hu with rfl | hu2
          · exfalso
            simp [eligB, hempty] at helig
          · exact m2 u hu2 helig
        · rcases m3 with hl | ⟨v, hv, h1, h2, h3⟩
          · exact Or.inl hl
          · exact Or.inr ⟨v, List.mem_cons_of_mem _ hv, h1, h2, h3⟩
      · by_cases hacc : (mseLt (calculate_color_mse cs r.colors) lo &&
            mseLe (calculate_color_mse cs r.colors) mse_threshold) = true
        · have hst : stepRef cs (b, c, lo) r =
              (r.name,
                (match calculate_color_mse cs r.colors with
                 | some m => max 0 (1 - m / mse_threshold)
                 | none => 0),
                calculate_color_mse cs r.colors) := by
            simp [stepRef, hempty, hacc]
          rw [hst]
          rw [Bool.and_eq_true] at hacc
          have hlt : mseLt (calculate_color_mse cs r.colors) lo = true := hacc.1
          have hle : mseLe (calculate_color_mse cs r.colors) mse_threshold = true := hacc.2
          have hEr : eligB cs r = true := by
            simp [eligB, hempty, hle]
          obtain ⟨m1, m2, m3⟩ := ih r.name _ (calculate_color_mse cs r.colors)
          refine ⟨mseLeOpt_trans m1 (mseLt_imp_leOpt hlt), ?_, ?_⟩
          · intro u hu helig
            rcases List.mem_cons.mp hu with rfl | hu2
            · exact m1
            · exact m2 u hu2 helig
          · rcases m3 with ⟨hb, hl⟩ | ⟨v, hv, h1, h2, h3⟩
            · exact Or.inr ⟨r, List.mem_cons_self _ _, hEr, hb, hl⟩
            · exact Or.inr ⟨v, List.mem_cons_of_mem _ hv, h1, h2, h3⟩
        · rw [Bool.not_eq_true] at hacc
          have hst : stepRef cs (b, c, lo) r = (b, c, lo) := by
            simp [stepRef, hempty, hacc]
          rw [hst]
          obtain ⟨m1, m2, m3⟩ := ih b c lo
          refine ⟨m1, ?_, ?_⟩
          · intro u hu helig
            rcases List.mem_cons.mp hu with rfl | hu2
            · have hle : mseLe (calculate_color_mse cs u.colors) mse_threshold = true := by
                simp only [eligB, Bool.and_eq_true] at helig
                exact helig.2
              have hltf : mseLt (calculate_color_mse cs u.colors) lo = false := by
                cases hx : mseLt (calculate_color_mse cs u.colors) lo
                · rfl
                · exfalso
                  rw [hx, hle] at hacc
                  simp at hacc
              exact mseLeOpt_trans m1 (not_mseLt_imp_leOpt hltf)
            · exact m2 u hu2 helig
          · rcases m3 with hl | ⟨v, hv, h1, h2, h3⟩
            · exact Or.inl hl
            · exact Or.inr ⟨v, List.mem_cons_of_mem _ hv, h1, h2, h3⟩

/-- Claim C9: with non-empty sampled cell colors, the classifier selects a
reference whose minimum pairwise squared color distance is least among the
references clearing the acceptance threshold 2000; when no reference
clears the threshold, the result unit is `empty.png`. -/
theorem find_best_unit_match_min_mse (refs : List UnitRef) (cs : List Color)
    (_hcs : cs ≠ []) :
    ((∀ u ∈ refs, eligB cs u = false) → (find_best_unit_match refs cs).unit = "empty.png") ∧
    (∀ u ∈ refs, eligB cs u = true →
      ∃ v ∈ refs, eligB cs v = true ∧ (find_best_unit_match refs cs).unit = v.name ∧
        ∀ w ∈ refs, eligB cs w = true →
          mseLeOpt (calculate_color_mse cs v.colors) (calculate_color_mse cs w.colors)) := by
  obtain ⟨m1, m2, m3⟩ := stepRef_foldl_spec cs refs "empty.png" 0 none
  constructor
  · intro hnone
    rcases m3 with ⟨hb, _⟩ | ⟨v, hv, h1, _, _⟩
    · simp only [find_best_unit_match]
      exact hb
    · rw [hnone v hv] at h1
      exact absurd h1 (by simp)
  · intro u hu huE
    rcases m3 with ⟨hb, hl⟩ | ⟨v, hv, h1, h2, h3⟩
    · exfalso
      have hx := m2 u hu huE
      rw [hl] at hx
      have hne : calculate_color_mse cs u.colors ≠ none := by
        intro hn
        simp [eligB, hn, mseLe] at huE
      rcases hy : calculate_color_mse cs u.colors with _ | m
      · exact hne hy
      · rw [hy] at hx
        exact hx
    · refine ⟨v, hv, h1, ?_, ?_⟩
      · simp only [find_best_unit_match]
        exact h2
      · intro w hw hwE
        have hx := m2 w hw hwE
        rw [h3] at hx
        exact hx

end Perception

/-- Claim C1 counterexample: on the two-demon-hunter board with thirteen
empty slots and dps unit demon_hunter, `try_merge` produces NO merge action
and executes NO swipe — the claimed MergeAction pairing the two demon
hunters does not exist (demon_hunter is not a priority unit and the board
is far from full). -/
theorem demon_pair_board_open_no_action :
    (try_merge gridC1 1 "demon_hunter.png" ⟨false⟩).merge_df = none ∧
    (try_merge gridC1 1 "demon_hunter.png" ⟨false⟩).swipes = [] :=
  ⟨rfl, rfl⟩

/-- Claim C1 (amended): on that grid state the cycle idles, returning no
merge action, executing no swipe and reporting the need for more units,
for either value of `require_shaman` — the priority branch only fires for
chemist, bombardier, summoner and knight_statue, and the fullness branch
needs at most 2 empty slots while the board has 13. -/
theorem demon_pair_board_open_need_more_units (b : Bool) :
    (try_merge gridC1 1 "demon_hunter.png" ⟨b⟩).merge_df = none ∧
    (try_merge gridC1 1 "demon_hunter.png" ⟨b⟩).swipes = [] ∧
    (try_merge gridC1 1 "demon_hunter.png" ⟨b⟩).info = "need more units!" := by
  cases b
  · exact ⟨rfl, rfl, rfl⟩
  · exact ⟨rfl, rfl, rfl⟩

/-- Claim C2 counterexample: on a board whose census has no (unit, rank)
count of 2 or more (a lone harlequin, a lone dryad, twelve distinct units,
one empty slot), the special-combo pass still executes a merge swipe —
`decide()` does return no action, but a merge IS executed. -/
theorem special_merge_fires_without_pairs :
    (grid_meta_series gridC2 0).all (fun e => decide (e.count ≤ 1)) = true ∧
    (try_merge gridC2 1 "zealot.png" ⟨false⟩).swipes =
      [(⟨0, "harlequin.png", 1, 0⟩, ⟨1, "dryad.png", 1, 0⟩)] ∧
    (try_merge gridC2 1 "zealot.png" ⟨false⟩).merge_df = none :=
  ⟨by decide, rfl, rfl⟩

/-- Claim C2 witness: the no-pair hypothesis holds on the concrete board
`gridC2` and the theorem instantiates there. -/
theorem no_pairs_returns_no_merge_action_witness :
    (∀ e ∈ strip_empty (grid_meta_series gridC2 0), e.count ≤ 1) ∧
    (try_merge gridC2 1 "monk.png" ⟨false⟩).merge_df = none :=
  ⟨by decide, no_pairs_returns_no_merge_action gridC2 1 "monk.png" ⟨false⟩ (by decide)⟩

/-- Claim C5 counterexample: thirteen demon hunters (≥ 11), dps unit
demon_hunter, `require_shaman` off: the cycle signals the wait AND still
produces a MergeAction merging two demon hunters through the fullness
branch — it does not wait INSTEAD of acting. -/
theorem demon_saturation_still_merges :
    (try_merge gridC5 1 "demon_hunter.png" ⟨false⟩).waited = true ∧
    (try_merge gridC5 1 "demon_hunter.png" ⟨false⟩).merge_df =
      some [⟨0, "demon_hunter.png", 1, 0⟩, ⟨1, "demon_hunter.png", 1, 0⟩] :=
  ⟨rfl, rfl⟩

/-- Claim C5 witness: the saturation hypothesis holds on `gridC5` and the
wait theorem instantiates there. -/
theorem demon_saturation_sets_wait_witness :
    11 ≤ sumCounts (adv_filter_keys (strip_empty (grid_meta_series gridC5 0))
        (some [Token.unit "demon_hunter.png"]) none false) ∧
    (try_merge gridC5 1 "demon_hunter.png" ⟨true⟩).waited = true :=
  ⟨by decide, demon_saturation_sets_wait gridC5 1 ⟨true⟩ (by decide)⟩

/-- Claim C6 counterexample: on a full board whose only mergeable pair is a
rank-2 zealot pair, no entry exists at the configured target rank 1, and
the escalated pool (the returned `merge_series`) consists of the rank-2
zealot entry — a protected unit at a rank OUTSIDE 3..7 — which the fallback
then merges. -/
theorem escalated_pool_keeps_low_rank_protected :
    (try_merge gridC6 1 "monk.png" ⟨false⟩).info = "Merging high level!" ∧
    (try_merge gridC6 1 "monk.png" ⟨false⟩).merge_series = [⟨"zealot.png", 2, 2⟩] ∧
    (try_merge gridC6 1 "monk.png" ⟨false⟩).merge_df =
      some [⟨0, "zealot.png", 2, 0⟩, ⟨1, "zealot.png", 2, 0⟩] :=
  ⟨rfl, rfl, rfl⟩

/-- Claim C7 counterexample: from the pool with chemists at ranks 1
(count 3) and 4 (count 1), the decision DOES choose chemist as a merge
target — the priority branch merges two rank-1 chemists while the rank-4
chemist is still on the board. -/
theorem chemist_priority_merged_despite_protection :
    (try_merge gridC7 1 "zealot.png" ⟨false⟩).merge_df =
      some [⟨0, "chemist.png", 1, 0⟩, ⟨1, "chemist.png", 1, 0⟩] ∧
    gridC7.filter (fun r => r.unit == "chemist.png" && r.rank == 4) =
      [⟨3, "chemist.png", 4, 0⟩] :=
  ⟨rfl, rfl⟩

/-- Claim C7 (amended): the protection pass removes the rank-4 chemist
entry first (one count of the highest rank), and the subsequent decision
still merges chemists: chemist is a priority unit, so the remaining rank-1
pair is swiped even though the board keeps the rank-4 chemist (and the
returned info still reads `need more units!` because the board has
room). -/
theorem preserve_removes_highest_then_priority_merges :
    preserve_unit [⟨"chemist.png", 1, 3⟩, ⟨"chemist.png", 4, 1⟩] "chemist.png" false
      = [⟨"chemist.png", 1, 3⟩] ∧
    (try_merge gridC7 1 "zealot.png" ⟨false⟩).swipes =
      [(⟨0, "chemist.png", 1, 0⟩, ⟨1, "chemist.png", 1, 0⟩)] ∧
    (try_merge gridC7 1 "zealot.png" ⟨false⟩).info = "need more units!" :=
  ⟨rfl, rfl, rfl⟩

/-- Claim C4 witness: the slot-uniqueness hypothesis holds on the concrete
previous grid `prevW` and the age theorem instantiates on `curW`/`prevW`. -/
theorem analyze_grid_state_age_spec_witness :
    prevW.Pairwise (fun a b => a.slot ≠ b.slot) ∧
    ((∀ r ∈ Perception.analyze_grid_state curW none, r.age = 0) ∧
      (∀ pr ∈ curW.zip (Perception.analyze_grid_state curW (some prevW)), ∀ p ∈ prevW,
        p.slot = pr.1.slot →
          pr.2.age = if p.unit = pr.1.unit ∧ p.rank = pr.1.rank then p.age + 1 else 0)) :=
  ⟨by decide, Perception.analyze_grid_state_age_spec curW prevW (by decide)⟩

/-- Claim C9 witness: the non-empty-colors hypothesis holds on the concrete
cell colors `csW` and the classifier theorem instantiates on `refsW`. -/
theorem find_best_unit_match_min_mse_witness :
    csW ≠ [] ∧
    ((∀ u ∈ refsW, Perception.eligB csW u = false) →
        (Perception.find_best_unit_match refsW csW).unit = "empty.png") ∧
    (∀ u ∈ refsW, Perception.eligB csW u = true →
      ∃ v ∈ refsW, Perception.eligB csW v = true ∧
        (Perception.find_best_unit_match refsW csW).unit = v.name ∧
        ∀ w ∈ refsW, Perception.eligB csW w = true →
          Perception.mseLeOpt (Perception.calculate_color_mse csW v.colors)
            (Perception.calculate_color_mse csW w.colors)) :=
  ⟨by decide, Perception.find_best_unit_match_min_mse refsW csW (by decide)⟩

end RRBot
